import Mathlib

/-!
Verification of the event reconciliation and caching subsystem of the
CallEats backend (webhook dispatcher, delayed reconciliation scheduler,
reconciliation fetcher, cache manager, tenant resolver).

The definitions below are a shallow embedding of the Python sources:
  * src/backend_2/restaurant_voice_assistant/infrastructure/cache/manager.py
    (and its in-memory twin src/backend/src/services/infrastructure/cache.py)
  * src/backend_2/restaurant_voice_assistant/domain/phones/mapping.py
  * src/backend/src/services/calls/parser.py
  * src/backend_2/restaurant_voice_assistant/domain/calls/fetch.py
  * src/backend/src/services/vapi/server.py
  * src/backend/src/api/vapi.py

Modelling conventions, used throughout:
  * Python strings are Lean `String`; `None`-or-string parameters are
    `Option String`; Python truthiness of a string is non-emptiness.
  * TTL expiry and the bounded size of the in-memory TTLCache are not
    modelled (the claims under study are about key scoping, not about
    time or capacity); a TTL map is an association list where an insert
    shadows and a delete removes every binding of the key.
  * The Redis backing store is a key/value association list plus a
    `failing` flag: when `failing` is set every Redis operation raises,
    which the source catches and turns into the in-memory fallback.
    Redis KEYS with the patterns built by the source (a literal prefix
    followed by `*`) is modelled as a literal prefix match, which is the
    Redis behaviour whenever tenant and category contain no glob
    metacharacters.  JSON serialisation into Redis is abstracted away by
    storing payloads as opaque strings.
-/

/-- Python truthiness of an optional string: `None` and `""` are falsy. -/
def oTruthy : Option String → Bool
  | none => false
  | some s => s ≠ ""

/-- Python `a or b` on optional strings. -/
def pyOrS (a b : Option String) : Option String :=
  if oTruthy a then a else b

/-- The view of an optional string through Python truthiness:
`some ""` collapses to `none`. -/
def truthyView (o : Option String) : Option String :=
  if oTruthy o then o else none

/-- Association-list lookup with the first binding winning (an insert at
the head therefore shadows older bindings, like an overwriting store). -/
def alGet {α : Type} : List (String × α) → String → Option α
  | [], _ => none
  | (k, v) :: l, key => if k = key then some v else alGet l key

/-- Python `s.startswith(pre)`. -/
def pyStartswith (s pre : String) : Bool :=
  pre.data.isPrefixOf s.data

/-- Python `sub in s` (substring containment). -/
def pyContains (s sub : String) : Bool :=
  decide (sub.data <:+: s.data)

/-! ## Cache Manager

Embedding of
src/backend_2/restaurant_voice_assistant/infrastructure/cache/manager.py.
The in-memory-only configuration (`redis = none`) also covers
src/backend/src/services/infrastructure/cache.py, whose bodies are the
same except that its keys carry no `cache:` prefix. -/

/-- The Redis backing store: a key/value map plus a flag that makes every
operation raise (connection failure), which the source catches. -/
structure RedisSt where
  kv : List (String × String)
  failing : Bool
deriving DecidableEq

/-- The module-level state of the cache manager: the optional Redis
client, the in-memory fallback for search results (`_fallback_cache`)
and the in-memory fallback for call-id-to-phone associations
(`_fallback_call_phone_cache`). -/
structure CacheSt where
  redis : Option RedisSt
  fallback : List (String × String)
  fallbackCallPhone : List (String × String)
deriving DecidableEq

def cacheInit : CacheSt := ⟨none, [], []⟩

/-- `get_cache_key`: `category or "all"` then
`f"cache:{restaurant_id}:{category_str}:{query}"`. -/
def get_cache_key (restaurant_id query : String) (category : Option String) : String :=
  let category_str := match category with
    | some c => if c = "" then "all" else c
    | none => "all"
  "cache:" ++ restaurant_id ++ ":" ++ category_str ++ ":" ++ query

/-- `get_cached_result`.  On the working Redis path a missing or empty
value falls out of the `if cached:` and the function returns `None`
without consulting the fallback; only a raising Redis falls back. -/
def get_cached_result (st : CacheSt) (restaurant_id query : String)
    (category : Option String) : Option String :=
  let key := get_cache_key restaurant_id query category
  match st.redis with
  | some r =>
    if r.failing then alGet st.fallback key
    else
      match alGet r.kv key with
      | some s => if s = "" then none else some s
      | none => none
  | none => alGet st.fallback key

/-- `set_cached_result`.  `setex` into Redis when it works, else the
in-memory fallback. -/
def set_cached_result (st : CacheSt) (restaurant_id query : String)
    (results : String) (category : Option String) : CacheSt :=
  let key := get_cache_key restaurant_id query category
  match st.redis with
  | some r =>
    if r.failing then { st with fallback := (key, results) :: st.fallback }
    else { st with redis := some { r with kv := (key, results) :: r.kv } }
  | none => { st with fallback := (key, results) :: st.fallback }

/-- The key predicate of `_clear_fallback_cache`: a key is kept unless it
starts with `cache:{restaurant_id}:` and (no category was given or the
key contains `:{category}:`). -/
def fallbackKeyKept (restaurant_id : String) (category : Option String)
    (key : String) : Bool :=
  !(pyStartswith key ("cache:" ++ restaurant_id ++ ":") &&
    (match category with
     | none => true
     | some c => pyContains key (":" ++ c ++ ":")))

/-- `_clear_fallback_cache`. -/
def clear_fallback_cache (l : List (String × String)) (restaurant_id : String)
    (category : Option String) : List (String × String) :=
  l.filter (fun kv => fallbackKeyKept restaurant_id category kv.1)

/-- The key predicate of the Redis branch of `clear_cache`: KEYS with a
pattern that is a literal prefix followed by `*`. -/
def redisKeyKept (pre key : String) : Bool :=
  !(pyStartswith key pre)

/-- `clear_cache`.  On the Redis path the pattern is
`cache:{restaurant_id}:{category}:*` when the category is truthy, else
`cache:{restaurant_id}:*`; on a raising Redis and in the in-memory
configuration the fallback map is cleared instead. -/
def clear_cache (st : CacheSt) (restaurant_id : String)
    (category : Option String) : CacheSt :=
  match st.redis with
  | some r =>
    if r.failing then
      { st with fallback := clear_fallback_cache st.fallback restaurant_id category }
    else
      let pre := match category with
        | some c =>
          if c = "" then "cache:" ++ restaurant_id ++ ":"
          else "cache:" ++ restaurant_id ++ ":" ++ c ++ ":"
        | none => "cache:" ++ restaurant_id ++ ":"
      { st with redis := some { r with kv := r.kv.filter (fun kv => redisKeyKept pre kv.1) } }
  | none =>
    { st with fallback := clear_fallback_cache st.fallback restaurant_id category }

/-- `store_call_phone`: a no-op unless both call id and phone number are
truthy; stores under `call_phone:{call_id}` in Redis, or under the bare
call id in the in-memory fallback. -/
def store_call_phone (st : CacheSt) (call_id phone_number : String) : CacheSt :=
  if call_id = "" ∨ phone_number = "" then st
  else
    let key := "call_phone:" ++ call_id
    match st.redis with
    | some r =>
      if r.failing then
        { st with fallbackCallPhone := (call_id, phone_number) :: st.fallbackCallPhone }
      else { st with redis := some { r with kv := (key, phone_number) :: r.kv } }
    | none =>
      { st with fallbackCallPhone := (call_id, phone_number) :: st.fallbackCallPhone }

/-- `get_call_phone`: guarded on a falsy call id (returning before any
backing store is consulted), then Redis under `call_phone:{call_id}` or
the in-memory fallback under the bare call id. -/
def get_call_phone (st : CacheSt) (call_id : String) : Option String :=
  if call_id = "" then none
  else
    let key := "call_phone:" ++ call_id
    match st.redis with
    | some r =>
      if r.failing then alGet st.fallbackCallPhone call_id
      else alGet r.kv key
    | none => alGet st.fallbackCallPhone call_id

/-! ## Tenant Resolver (phone mapping)

Embedding of
src/backend_2/restaurant_voice_assistant/domain/phones/mapping.py. -/

/-- Removing every occurrence of one character from a character list:
the effect of Python `s.replace(c, "")` for a one-character pattern. -/
def removeChar : List Char → Char → List Char
  | [], _ => []
  | c :: cs, d => if c = d then removeChar cs d else c :: removeChar cs d

/-- The `phone_clean` normalisation of mapping.py:
`phone_number.replace(" ", "").replace("(", "").replace(")", "").replace("-", "")`. -/
def phoneClean (p : String) : String :=
  String.mk (removeChar (removeChar (removeChar (removeChar p.data ' ') '(') ')') '-')

/-- The characters `phone_clean` keeps. -/
def keepChar (c : Char) : Bool :=
  !(c = ' ' || c = '(' || c = ')' || c = '-')

/-- The `restaurant_phone_mappings` relation together with a flag that
makes the datastore raise (which `get_restaurant_id_from_phone` catches
and reports as not-found). -/
structure PhoneDB where
  mappings : List (String × String)
  failing : Bool
deriving DecidableEq

/-- `get_restaurant_id_from_phone`: guard on a falsy/non-string phone
number, normalise with `phone_clean`, then a single indexed lookup;
datastore errors are swallowed and reported as `None`. -/
def get_restaurant_id_from_phone (db : PhoneDB) (phone_number : String) : Option String :=
  if phone_number = "" then none
  else if db.failing then none
  else alGet db.mappings (phoneClean phone_number)

/-! ## Call payloads and the parser

Embedding of src/backend/src/services/calls/parser.py (whose backend_2
twin restaurant_voice_assistant/domain/calls/parser.py is imported by
fetch.py).  The vendor payload is a JSON dict; the embedding types each
field by the shapes the code distinguishes. -/

/-- A value found in a `phoneNumber` position: a string, an empty dict
(falsy, and `.get("number")` yields `None`), a non-empty dict with an
optional `number` field, or any other object (truthy, converted by
`str(...)` to its representation). -/
inductive PV where
  | pstr (s : String)
  | pdictEmpty
  | pdict (number : Option String)
  | pother (reprStr : String)
deriving DecidableEq

/-- Python truthiness of a `phoneNumber` value. -/
def pvTruthy : PV → Bool
  | .pstr s => s ≠ ""
  | .pdictEmpty => false
  | .pdict _ => true
  | .pother _ => true

/-- `normalize_phone_number` on a present value: a string is returned
as-is, a dict yields its `number` field, anything else its `str(...)`. -/
def pvNormalize : PV → Option String
  | .pstr s => some s
  | .pdictEmpty => none
  | .pdict n => n
  | .pother r => some r

/-- `normalize_phone_number` including the `None` case. -/
def normalize_phone_number (v : Option PV) : Option String :=
  match v with
  | none => none
  | some pv => pvNormalize pv

/-- A value in a timestamp position: either an actual datetime (already
parsed, at whole-second granularity) or a string together with the
result `datetime.fromisoformat` would give for it (`none` when it would
raise); the ISO-8601 grammar itself is external library behaviour and is
carried as this oracle. -/
inductive TSVal where
  | dt (t : Int)
  | str (s : String) (iso : Option Int)
deriving DecidableEq

/-- Python truthiness of an optional timestamp value (datetimes are
always truthy, `""` is falsy). -/
def tsTruthy : Option TSVal → Bool
  | none => false
  | some (.dt _) => true
  | some (.str s _) => s ≠ ""

/-- `parse_timestamp`: falsy input gives `None`, a datetime is returned
unchanged, a string is parsed with failures swallowed to `None`. -/
def parse_timestamp : Option TSVal → Option Int
  | none => none
  | some (.dt t) => some t
  | some (.str s iso) => if s = "" then none else iso

/-- Python `a or b` on timestamp positions
(`payload.get("startedAt") or payload.get("createdAt")`). -/
def pyOrTS (a b : Option TSVal) : Option TSVal :=
  if tsTruthy a then a else b

/-- An element of the `messages` array: a dict with the fields the code
reads (`role`, `content`, `message`), or a non-dict entry. -/
inductive MsgVal where
  | dict (role : Option String) (content : Option String) (message : Option String)
  | nondict
deriving DecidableEq

/-- A cleaned message kept by the parser: only `role` and `content`. -/
structure CleanMsg where
  role : String
  content : String
deriving DecidableEq

/-- The conversational roles the parser keeps. -/
def conversationalRoles : List String := ["user", "assistant", "bot"]

/-- The body of the message filter loop: keep a dict message whose role
is conversational, with `content = msg.get("content") or
msg.get("message", "")`, and only if that content is truthy. -/
def cleanMsg : MsgVal → Option CleanMsg
  | .nondict => none
  | .dict role content message =>
    match role with
    | none => none
    | some r =>
      if r ∈ conversationalRoles then
        let c := pyOrS content (some (message.getD ""))
        match c with
        | some cs => if cs = "" then none else some ⟨r, cs⟩
        | none => none
      else none

/-- A value in the `customer` position. -/
inductive CustVal where
  | cdict (number : Option String) (phoneNumber : Option String)
  | cnondict
deriving DecidableEq

/-- A value in the `cost` position: a number, a bool, a string together
with the result Python `float(...)` would give for it (`none` when it
would raise `ValueError`), or any other object (`float` raises
`TypeError`). -/
inductive CostVal where
  | num (q : ℚ)
  | boolv (b : Bool)
  | str (s : String) (asFloat : Option ℚ)
  | other
deriving DecidableEq

/-- Python `float(...)` with `ValueError`/`TypeError` as `none`. -/
def pyFloat : CostVal → Option ℚ
  | .num q => some q
  | .boolv b => some (if b then 1 else 0)
  | .str _ f => f
  | .other => none

/-- The vendor call payload (a Vapi API response or webhook payload),
restricted to the fields the parser and the fetcher read.  `none` models
an absent key. -/
structure Payload where
  id : Option String := none
  status : Option String := none
  phoneNumber : Option PV := none
  phoneNumberId : Option String := none
  startedAt : Option TSVal := none
  createdAt : Option TSVal := none
  endedAt : Option TSVal := none
  updatedAt : Option TSVal := none
  duration : Option ℚ := none
  fromField : Option String := none
  customer : Option CustVal := none
  messages : List MsgVal := []
  cost : Option CostVal := none
deriving DecidableEq

/-- The dict returned by `parse_vapi_call_data`. -/
structure ParsedCall where
  call_id : Option String
  phone_number : Option String
  started_at : Option Int
  ended_at : Option Int
  duration_seconds : Option ℚ
  caller : Option String
  outcome : String
  messages : List CleanMsg
  cost : Option ℚ
deriving DecidableEq

/-- The terminal vendor statuses (`["ended", "completed", "failed"]`). -/
def terminalStatuses : List String := ["ended", "completed", "failed"]

/-- Python `str.lower()` (for the ASCII vendor statuses it is applied
to), written so that it evaluates by kernel reduction. -/
def strLower (s : String) : String := String.mk (s.data.map Char.toLower)

/-- Python truthiness of an optional number (`0` is falsy). -/
def durTruthy : Option ℚ → Bool
  | none => false
  | some q => q ≠ 0

/-- `parse_vapi_call_data`.  Field variations: `startedAt` or
`createdAt` for the start, `endedAt` (or `updatedAt` when the status is
terminal) for the end; `duration_seconds` recomputed from the timestamp
delta when the payload's `duration` is falsy; messages filtered to
conversational roles with non-empty content; `cost` coerced with
`float(...)` or dropped. -/
def parse_vapi_call_data (p : Payload) : ParsedCall :=
  let call_id := p.id
  let phone_number := normalize_phone_number p.phoneNumber
  let caller :=
    if oTruthy p.fromField then p.fromField
    else match p.customer with
      | some (.cdict n pn) => pyOrS n pn
      | some .cnondict => p.fromField
      | none => p.fromField
  let filtered_messages := p.messages.filterMap cleanMsg
  let started_at_str := pyOrTS p.startedAt p.createdAt
  let status := strLower (p.status.getD "")
  let ended_at_str :=
    if tsTruthy p.endedAt then p.endedAt
    else if status ∈ terminalStatuses then p.updatedAt
    else p.endedAt
  let started_at := parse_timestamp started_at_str
  let ended_at := parse_timestamp ended_at_str
  let duration_seconds :=
    if durTruthy p.duration then p.duration
    else match started_at, ended_at with
      | some s, some e => some ((e - s : Int) : ℚ)
      | _, _ => p.duration
  let outcome := if status = "" then "completed" else status
  let cost := match p.cost with
    | none => none
    | some c => pyFloat c
  { call_id := call_id
    phone_number := phone_number
    started_at := started_at
    ended_at := ended_at
    duration_seconds := duration_seconds
    caller := caller
    outcome := outcome
    messages := filtered_messages
    cost := cost }

/-- A call record as persisted by `create_call`, owned by the tenant the
phone number resolved to. -/
structure StoredCall where
  restaurant_id : String
  data : ParsedCall
deriving DecidableEq

/-- `store_call_record`: re-normalise the phone number, abort when it is
falsy or when no tenant mapping exists, else insert the record and
return the new row id. -/
def store_call_record (db : PhoneDB) (newId : String) (parsed : ParsedCall) :
    Option String × Option StoredCall :=
  match parsed.phone_number with
  | none => (none, none)
  | some p =>
    if p = "" then (none, none)
    else
      match get_restaurant_id_from_phone db p with
      | none => (none, none)
      | some rid =>
        if rid = "" then (none, none)
        else (some newId, some ⟨rid, parsed⟩)

/-! ## Reconciliation Fetcher

Embedding of
src/backend_2/restaurant_voice_assistant/domain/calls/fetch.py. -/

/-- The record returned by the vendor's `get_phone_number` endpoint. -/
structure PNRec where
  number : Option String
deriving DecidableEq

/-- The environment of one fetcher invocation: the configured API key,
the vendor's response to `get_call` for the requested id (`none` models
a raising `VapiAPIError`), the vendor's `get_phone_number` endpoint
(`none` models an exception, swallowed by the source), the phone-mapping
datastore, and the row id `create_call` will allocate. -/
structure FetchEnv where
  apiKey : Option String
  getCall : Option Payload
  getPhoneNumber : String → Option PNRec
  db : PhoneDB
  newId : String

/-- The phone-resolution block of `fetch_and_store_call_from_vapi`
(lines 66-85): the cached association, then — when that is falsy — the
`phoneNumber` field of the fetched record (normalised only when the raw
field is truthy), then — when still falsy — a secondary vendor lookup by
`phoneNumberId` whose failure keeps the previous value. -/
def resolveFieldStep (cached : Option String) (pv : Option PV) : Option String :=
  if oTruthy cached then cached
  else match pv with
    | some v => if pvTruthy v then pvNormalize v else cached
    | none => cached

def resolveLookupStep (p2 : Option String) (pid : Option String)
    (lookup : String → Option PNRec) : Option String :=
  if oTruthy p2 then p2
  else match pid with
    | some i =>
      if i = "" then p2
      else match lookup i with
        | some r => r.number
        | none => p2
    | none => p2

def resolvePhoneBlock (cached : Option String) (pv : Option PV)
    (pid : Option String) (lookup : String → Option PNRec) : Option String :=
  resolveLookupStep (resolveFieldStep cached pv) pid lookup

/-- `fetch_and_store_call_from_vapi`: guard on the API key, fetch the
record, gate on a terminal status, resolve the phone number, then parse
and store.  Returns the stored row id and (for the datastore-effect
claims) the record written, `none` when nothing was written. -/
def fetch_and_store_call_from_vapi (env : FetchEnv) (cache : CacheSt)
    (vapi_call_id : String) : Option String × Option StoredCall :=
  match env.apiKey with
  | none => (none, none)
  | some k =>
    if k = "" then (none, none)
    else
      match env.getCall with
      | none => (none, none)
      | some call_data =>
        let status := strLower (call_data.status.getD "")
        if status ∉ terminalStatuses then (none, none)
        else
          let phone_number := resolvePhoneBlock (get_call_phone cache vapi_call_id)
            call_data.phoneNumber call_data.phoneNumberId env.getPhoneNumber
          match phone_number with
          | none => (none, none)
          | some p =>
            if p = "" then (none, none)
            else
              let call_data' := { call_data with phoneNumber := some (.pstr p) }
              store_call_record env.db env.newId (parse_vapi_call_data call_data')

/-- Refinement target for the fetcher's phone-resolution priority chain,
written from the claim's words: the cached call-id-to-phone association
if it yields a (non-empty) phone, else the `phoneNumber` field of the
fetched record, else a secondary vendor lookup via the record's
`phoneNumberId`; `none` when all three sources yield nothing. -/
def specPhonePriority (cached : Option String) (pv : Option PV)
    (pid : Option String) (lookup : String → Option PNRec) : Option String :=
  match truthyView cached with
  | some p => some p
  | none =>
    match truthyView (normalize_phone_number pv) with
    | some p => some p
    | none =>
      truthyView ((truthyView pid).bind (fun i => (lookup i).bind (fun r => r.number)))

/-! ## Delayed Reconciliation Scheduler

Embedding of `_schedule_fallback_fetch` in
src/backend/src/services/vapi/server.py.  The module-level state is the
pending set `_scheduled_fetches` (guarded by `_scheduled_fetches_lock`)
plus, for the claims, the multiset of spawned-but-not-yet-fired tasks,
the multiset of tasks currently inside their fetch, and the log of
completed fetch invocations.  Events are the atomic steps of the source:
  * `schedule` is a call to `_schedule_fallback_fetch`: the atomic
    check-and-insert under the lock plus the thread spawn (when the id
    is already pending, the call returns without doing anything);
  * `beginFetch` is a spawned task waking from its 30-second sleep and
    entering `fetch_and_store_call_from_vapi`;
  * `endFetch` is the fetch completing — by returning or by raising —
    followed by the `finally` block discarding the id from the pending
    set.  An event for a task that does not exist is a no-op. -/
structure SchedState where
  pending : List String
  waiting : List String
  fetching : List String
  fetched : List String
deriving DecidableEq

inductive SchedEvent where
  | schedule (id : String)
  | beginFetch (id : String)
  | endFetch (id : String)
deriving DecidableEq

def schedStep (s : SchedState) : SchedEvent → SchedState
  | .schedule id =>
    if id ∈ s.pending then s
    else { s with pending := id :: s.pending, waiting := id :: s.waiting }
  | .beginFetch id =>
    if id ∈ s.waiting then
      { s with waiting := s.waiting.erase id, fetching := id :: s.fetching }
    else s
  | .endFetch id =>
    if id ∈ s.fetching then
      { s with fetching := s.fetching.erase id,
               pending := s.pending.erase id,
               fetched := id :: s.fetched }
    else s

def schedInit : SchedState := ⟨[], [], [], []⟩

def schedRun (s : SchedState) (t : List SchedEvent) : SchedState :=
  t.foldl schedStep s

/-- The number of live (spawned, not yet completed) tasks for an id. -/
def liveCount (s : SchedState) (id : String) : Nat :=
  s.waiting.count id + s.fetching.count id

/-- The scheduler invariant: per id, the pending set holds at most one
copy, at most one task is live, and the id is pending exactly while a
task is live. -/
def schedInv (s : SchedState) : Prop :=
  ∀ id : String,
    s.pending.count id ≤ 1 ∧
    liveCount s id ≤ 1 ∧
    (id ∈ s.pending ↔ (id ∈ s.waiting ∨ id ∈ s.fetching))

/-! ## Webhook Event Dispatcher

Embedding of the handlers in src/backend/src/services/vapi/server.py and
of the unified endpoint `vapi_unified_server` in
src/backend/src/api/vapi.py (the part after the shared-secret check).
Python exceptions that escape a handler are modelled with `Except Unit`;
the endpoint's catch-all turns them into the empty object. -/

/-- A JSON value, as produced by `request.json()`. -/
inductive JVal where
  | null
  | jbool (b : Bool)
  | jnum (q : ℚ)
  | jstr (s : String)
  | jarr (xs : List JVal)
  | jobj (fields : List (String × JVal))

/-- Whether a JSON value is an object. -/
def isJObj : JVal → Bool
  | .jobj _ => true
  | _ => false

/-- `message_obj.get("type")` compared against the three dispatched
message types, then the corresponding handler; any other type falls to
the logged empty acknowledgement.  A non-dict body or a non-dict
`message` raises (`.get` on a non-dict), which the endpoint catches. -/
def dispatchInner (hAR hSU hEOC : JVal → Except Unit JVal)
    (parsed : Except Unit JVal) : Except Unit JVal :=
  match parsed with
  | .error e => .error e
  | .ok body =>
    match body with
    | .jobj fs =>
      let msg := (alGet fs "message").getD (.jobj [])
      match msg with
      | .jobj mfs =>
        match alGet mfs "type" with
        | some (.jstr s) =>
          if s = "assistant-request" then hAR msg
          else if s = "status-update" then hSU msg
          else if s = "end-of-call-report" then hEOC msg
          else .ok (.jobj [])
        | _ => .ok (.jobj [])
      | _ => .error ()
    | _ => .error ()

/-- `vapi_unified_server`, after authentication: the whole body — the
JSON parse of the request body and the dispatch — sits in one
`try/except` whose handler logs and returns `{}`. -/
def vapi_unified_server (hAR hSU hEOC : JVal → Except Unit JVal)
    (parsed : Except Unit JVal) : JVal :=
  match dispatchInner hAR hSU hEOC parsed with
  | .ok r => r
  | .error _ => .jobj []

/-- The `call` object of a status-update / end-of-call-report message:
absent, an empty dict (falsy), a dict with the fields the handlers read,
or a non-dict value.  A `status` value that is present but not a string
is `statusNonStr` (calling `.lower()` on it raises). -/
inductive SV where
  | sstr (s : String)
  | statusNonStr
deriving DecidableEq

inductive CallV where
  | cdictEmpty
  | cdict (status : Option SV) (id : Option String)
  | cnondict
deriving DecidableEq

/-- A status-update or end-of-call-report message object, restricted to
the fields the handlers read.  `none` models an absent key. -/
structure SUMsg where
  call : Option CallV
deriving DecidableEq

/-- `handle_status_update`: invalid call object gives the failure
acknowledgement; `status = call_obj.get("status", "").lower()` raises on
a non-string status; a `ringing` status with a truthy call id schedules
the fallback fetch; anything else is acknowledged and ignored. -/
def handle_status_update (sch : SchedState) (m : SUMsg) :
    Except Unit (JVal × SchedState) :=
  match m.call with
  | some (.cdict st id) =>
    match st.getD (.sstr "") with
    | .statusNonStr => .error ()
    | .sstr s =>
      let status := strLower s
      match id with
      | some i =>
        if status = "ringing" ∧ i ≠ "" then
          .ok (.jobj [("success", .jbool true), ("message", .jstr "Scheduled API fetch")],
               schedStep sch (.schedule i))
        else
          .ok (.jobj [("success", .jbool true),
                      ("message", .jstr ("Ignored status update: " ++ status))], sch)
      | none =>
        .ok (.jobj [("success", .jbool true),
                    ("message", .jstr ("Ignored status update: " ++ status))], sch)
  | _ =>
    .ok (.jobj [("success", .jbool false),
                ("message", .jstr "Invalid status-update payload")], sch)

/-- `handle_end_of_call_report`: invalid call object or falsy call id
give failure acknowledgements; otherwise the fallback fetch is
scheduled. -/
def handle_end_of_call_report (sch : SchedState) (m : SUMsg) :
    Except Unit (JVal × SchedState) :=
  match m.call with
  | some (.cdict _ id) =>
    match id with
    | some i =>
      if i = "" then
        .ok (.jobj [("success", .jbool false), ("message", .jstr "Missing call ID")], sch)
      else
        .ok (.jobj [("success", .jbool true), ("message", .jstr "Scheduled API fetch")],
             schedStep sch (.schedule i))
    | none =>
      .ok (.jobj [("success", .jbool false), ("message", .jstr "Missing call ID")], sch)
  | _ =>
    .ok (.jobj [("success", .jbool false),
                ("message", .jstr "Invalid webhook payload structure")], sch)

/-- The `call` object of an assistant-request message: the handler reads
`call.id`, and `_extract_phone_number` falls back to
`call.phoneNumber`.  A non-dict truthy value raises on `.get`. -/
inductive ARCallV where
  | acdictEmpty
  | acdict (id : Option String) (phoneNumber : Option PV)
  | acnondict
deriving DecidableEq

/-- An assistant-request message object, restricted to the fields the
handler reads.  `none` models an absent key. -/
structure ARMsg where
  phoneNumber : Option PV
  call : Option ARCallV
deriving DecidableEq

/-- The `call`-object fallback of `_extract_phone_number`: an absent or
falsy call object yields nothing; a non-dict call object raises. -/
def extractFromCall : Option ARCallV → Except Unit (Option String)
  | none => .ok none
  | some .acdictEmpty => .ok none
  | some .acnondict => .error ()
  | some (.acdict _ pn) =>
    match pn with
    | some v => if pvTruthy v then .ok (pvNormalize v) else .ok none
    | none => .ok none

/-- `_extract_phone_number`: a truthy `message.phoneNumber` is
normalised and returned (even when normalisation yields `None`);
otherwise the `call` object is consulted. -/
def extract_phone_number (m : ARMsg) : Except Unit (Option String) :=
  match m.phoneNumber with
  | some v => if pvTruthy v then .ok (pvNormalize v) else extractFromCall m.call
  | none => extractFromCall m.call

/-- `handle_assistant_request`: extract the phone number (empty response
when falsy), cache the call-id-to-phone association when a call id is
present, resolve the tenant, and answer with the tenant metadata or an
empty object. -/
def handle_assistant_request (cache : CacheSt) (db : PhoneDB) (m : ARMsg) :
    Except Unit (JVal × CacheSt) :=
  match extract_phone_number m with
  | .error e => .error e
  | .ok pho =>
    match pho with
    | none => .ok (.jobj [], cache)
    | some p =>
      if p = "" then .ok (.jobj [], cache)
      else
        match m.call with
        | some .acnondict => .error ()
        | c =>
          let call_id : Option String := match c with
            | some (.acdict i _) => i
            | _ => none
          let cache' := match call_id with
            | some cid => if cid ≠ "" then store_call_phone cache cid p else cache
            | none => cache
          match get_restaurant_id_from_phone db p with
          | some rid =>
            if rid ≠ "" then
              .ok (.jobj [("metadata",
                     .jobj [("restaurant_id", .jstr rid), ("phoneNumber", .jstr p)])],
                   cache')
            else .ok (.jobj [], cache')
          | none => .ok (.jobj [], cache')

/-- The fetcher environment of the C2 witness: a configured key and a
vendor record still in progress. -/
def fetchEnvNonTerminal : FetchEnv :=
  { apiKey := some "key"
    getCall := some { status := some "in-progress" }
    getPhoneNumber := fun _ => none
    db := ⟨[], false⟩
    newId := "row1" }

/-- The fetcher environment of the C6 witness: a terminal record with no
phone source anywhere. -/
def fetchEnvEnded : FetchEnv :=
  { apiKey := some "key"
    getCall := some { status := some "ended" }
    getPhoneNumber := fun _ => none
    db := ⟨[], false⟩
    newId := "row1" }

/-- The counterexample payload for C7: a supplied duration of `0`
together with parseable timestamps five seconds apart. -/
def payloadDurZero : Payload :=
  { duration := some 0
    startedAt := some (.dt 100)
    endedAt := some (.dt 105)
    status := some "ended" }

theorem alGet_cons_ne {α : Type} (k key : String) (v : α) (l : List (String × α))
    (h : k ≠ key) : alGet ((k, v) :: l) key = alGet l key := by
  simp [alGet, h]

theorem alGet_cons_self {α : Type} (k : String) (v : α) (l : List (String × α)) :
    alGet ((k, v) :: l) k = some v := by
  simp [alGet]

/-- Filtering an association list by a predicate on keys does not change
the lookup of a key the predicate keeps. -/
theorem alGet_filter_keep {α : Type} (l : List (String × α)) (p : String → Bool)
    (k : String) (h : p k = true) :
    alGet (l.filter (fun kv => p kv.1)) k = alGet l k := by
  induction l with
  | nil => rfl
  | cons hd tl ih =>
    by_cases hk : hd.1 = k
    · subst hk
      simp [List.filter, h, alGet, ih]
    · cases hp : p hd.1 <;>
        simp [List.filter, hp, alGet, hk, ih]

/-- Filtering an association list by a predicate on keys erases every
binding of a key the predicate drops. -/
theorem alGet_filter_drop {α : Type} (l : List (String × α)) (p : String → Bool)
    (k : String) (h : p k = false) :
    alGet (l.filter (fun kv => p kv.1)) k = none := by
  induction l with
  | nil => rfl
  | cons hd tl ih =>
    by_cases hk : hd.1 = k
    · subst hk
      simp [List.filter, h, alGet, ih]
    · cases hp : p hd.1 <;>
        simp [List.filter, hp, alGet, hk, ih]

theorem isPrefixOf_cons_cons (a b : Char) (l₁ l₂ : List Char) :
    (a :: l₁).isPrefixOf (b :: l₂) = (a == b && l₁.isPrefixOf l₂) := rfl

theorem isPrefixOf_append_self (p r : List Char) : p.isPrefixOf (p ++ r) = true := by
  induction p with
  | nil => simp [List.isPrefixOf]
  | cons a as ih => simp [isPrefixOf_cons_cons, ih]

/-- Chopping a common left part off both sides of a prefix test. -/
theorem isPrefixOf_append_left (A m h : List Char) :
    (A ++ m).isPrefixOf (A ++ h) = m.isPrefixOf h := by
  induction A with
  | nil => simp
  | cons a as ih => simp [isPrefixOf_cons_cons, ih]

/-- A string always starts with the prefix it was built from. -/
theorem pyStartswith_append (pre rest : String) :
    pyStartswith (pre ++ rest) pre = true := by
  simp [pyStartswith, String.data_append, isPrefixOf_append_self]

/-- No key of the phone-association keyspace (`call_phone:...`) starts
with a search-cache pattern prefix (`cache:...`): the two keyspaces are
disjoint. -/
theorem callPhoneKey_not_cachePrefix (cid tail : String) :
    pyStartswith ("call_phone:" ++ cid) ("cache:" ++ tail) = false := by
  simp only [pyStartswith, String.data_append]
  simp [isPrefixOf_cons_cons]

theorem removeChar_eq_filter (l : List Char) (d : Char) :
    removeChar l d = l.filter (fun c => c ≠ d) := by
  induction l with
  | nil => rfl
  | cons c cs ih =>
    by_cases h : c = d <;> simp [removeChar, h, ih]

/-- The chain of four one-character `replace`s strips exactly the
spaces, parentheses and hyphens, and nothing else. -/
theorem phoneClean_eq_filter (p : String) :
    phoneClean p = String.mk (p.data.filter keepChar) := by
  simp only [phoneClean, removeChar_eq_filter, List.filter_filter]
  congr 1
  apply List.filter_congr
  intro c _
  simp [keepChar]
  by_cases h1 : c = ' ' <;> by_cases h2 : c = '(' <;> by_cases h3 : c = ')' <;>
    by_cases h4 : c = '-' <;> simp [h1, h2, h3, h4]

/-! ## Helper lemmas about cache keys -/

/-- Every search-cache key starts with its tenant segment. -/
theorem cache_key_tenant_pre (rid cs q : String) :
    pyStartswith ("cache:" ++ rid ++ ":" ++ cs ++ ":" ++ q) ("cache:" ++ rid ++ ":") = true := by
  simp only [pyStartswith, String.data_append, List.append_assoc]
  simp [isPrefixOf_cons_cons, isPrefixOf_append_left, List.isPrefixOf]

/-- An `hours` key is never matched by the `menu` clearing pattern. -/
theorem hours_key_not_menu_pre (rid q : String) :
    pyStartswith ("cache:" ++ rid ++ ":" ++ "hours" ++ ":" ++ q)
      ("cache:" ++ rid ++ ":" ++ "menu" ++ ":") = false := by
  simp only [pyStartswith, String.data_append, List.append_assoc]
  simp [isPrefixOf_cons_cons, isPrefixOf_append_left]

/-- Keys that differ in their query segment are different keys. -/
theorem cache_key_ne_of_query_ne (rid : String) (cat : Option String)
    (q1 q2 : String) (h : q1 ≠ q2) :
    get_cache_key rid q1 cat ≠ get_cache_key rid q2 cat := by
  intro heq
  apply h
  unfold get_cache_key at heq
  have hd := congrArg String.data heq
  simp only [String.data_append] at hd
  have hq := List.append_cancel_left hd
  obtain ⟨d1⟩ := q1
  obtain ⟨d2⟩ := q2
  simp only [] at hq
  exact congrArg String.mk hq

/-! ## C10 -/

/-- C10: `store_call_phone` with an empty (or absent, which is equally
falsy) call id or phone number leaves the whole cache state — both
keyspaces — unchanged, and `get_call_phone` with an empty call id
returns `none` for every state of every backing store, returning before
any store is consulted. -/
theorem call_phone_guard_noop :
    (∀ st : CacheSt, ∀ phone : String, store_call_phone st "" phone = st) ∧
    (∀ st : CacheSt, ∀ cid : String, store_call_phone st cid "" = st) ∧
    (∀ st : CacheSt, get_call_phone st "" = none) := by
  refine ⟨?_, ?_, ?_⟩ <;> intros <;> simp [store_call_phone, get_call_phone]

/-! ## C9 -/

/-- C9: `clear_cache` — with or without a category, in every backing
configuration — never evicts a call-id-to-phone association:
`get_call_phone` answers the same before and after any invalidation. -/
theorem invalidate_never_evicts_call_phone (st : CacheSt) (rid : String)
    (cat : Option String) (cid : String) :
    get_call_phone (clear_cache st rid cat) cid = get_call_phone st cid := by
  by_cases hcid : cid = ""
  · subst hcid
    simp [get_call_phone]
  · obtain ⟨redis, fb, fcp⟩ := st
    cases redis with
    | none => simp [clear_cache, get_call_phone]
    | some r =>
      by_cases hf : r.failing
      · simp [clear_cache, get_call_phone, hf]
      · have hkept : ∀ pre t : String, pre = "cache:" ++ t →
            redisKeyKept pre ("call_phone:" ++ cid) = true := by
          intro pre t hpre
          subst hpre
          simp [redisKeyKept, callPhoneKey_not_cachePrefix]
        simp only [clear_cache, get_call_phone, hf]
        rcases cat with _ | c
        · simp only [hcid, if_false, Bool.false_eq_true]
          rw [alGet_filter_keep _ _ _ (hkept _ (rid ++ ":") (by rw [String.append_assoc]))]
        · by_cases hc : c = ""
          · subst hc
            simp only [hcid, if_false, if_true, Bool.false_eq_true]
            rw [alGet_filter_keep _ _ _ (hkept _ (rid ++ ":") (by rw [String.append_assoc]))]
          · simp only [hcid, hc, if_false, Bool.false_eq_true]
            rw [alGet_filter_keep _ _ _
              (hkept _ (rid ++ (":" ++ (c ++ ":"))) (by simp [String.append_assoc]))]

/-! ## C8 -/

/-- C8: cache keys embed the raw query string, so `"Hello"` and
`"hello"` name distinct entries: their keys differ, a set under
`"Hello"` leaves a get under `"hello"` exactly as before, and the
`"Hello"` entry itself is retrievable. -/
theorem cache_key_exactness :
    (∀ (rid : String) (cat : Option String),
       get_cache_key rid "Hello" cat ≠ get_cache_key rid "hello" cat) ∧
    (∀ (st : CacheSt) (rid : String) (cat : Option String) (v : String),
       get_cached_result (set_cached_result st rid "Hello" v cat) rid "hello" cat =
         get_cached_result st rid "hello" cat) ∧
    (∀ (st : CacheSt) (rid : String) (cat : Option String) (v : String), v ≠ "" →
       get_cached_result (set_cached_result st rid "Hello" v cat) rid "Hello" cat = some v) := by
  have hne : ∀ (rid : String) (cat : Option String),
      get_cache_key rid "Hello" cat ≠ get_cache_key rid "hello" cat :=
    fun rid cat => cache_key_ne_of_query_ne rid cat "Hello" "hello" (by decide)
  refine ⟨hne, ?_, ?_⟩
  · intro st rid cat v
    obtain ⟨redis, fb, fcp⟩ := st
    cases redis with
    | none =>
      simp only [get_cached_result, set_cached_result]
      rw [alGet_cons_ne _ _ _ _ (hne rid cat)]
    | some r =>
      by_cases hf : r.failing
      · simp only [get_cached_result, set_cached_result, hf, if_true]
        rw [alGet_cons_ne _ _ _ _ (hne rid cat)]
      · simp only [get_cached_result, set_cached_result, hf, if_false, Bool.false_eq_true]
        rw [alGet_cons_ne _ _ _ _ (hne rid cat)]
  · intro st rid cat v hv
    obtain ⟨redis, fb, fcp⟩ := st
    cases redis with
    | none =>
      simp only [get_cached_result, set_cached_result]
      rw [alGet_cons_self]
    | some r =>
      by_cases hf : r.failing
      · simp only [get_cached_result, set_cached_result, hf, if_true]
        rw [alGet_cons_self]
      · simp only [get_cached_result, set_cached_result, hf, if_false, Bool.false_eq_true]
        rw [alGet_cons_self]
        simp [hv]

/-- Closed instance of `cache_key_exactness`: after storing `"V"` under
`"Hello"` in a fresh in-memory cache, a get under `"hello"` still
answers `none`. -/
theorem cache_key_exactness_witness :
    get_cached_result (set_cached_result cacheInit "t" "Hello" "V" (some "menu"))
        "t" "hello" (some "menu") = none ∧
    get_cached_result (set_cached_result cacheInit "t" "Hello" "V" (some "menu"))
        "t" "Hello" (some "menu") = some "V" := by
  constructor
  · rw [cache_key_exactness.2.1 cacheInit "t" (some "menu") "V"]
    rfl
  · exact cache_key_exactness.2.2 cacheInit "t" (some "menu") "V" (by decide)

/-! ## C3 -/

/-- The key built by `get_cache_key` always has the five-segment shape. -/
theorem get_cache_key_shape (rid q : String) (cat : Option String) :
    ∃ cs, get_cache_key rid q cat = "cache:" ++ rid ++ ":" ++ cs ++ ":" ++ q :=
  ⟨_, rfl⟩

/-- Counterexample to C3 as stated: in the in-memory configuration, an
entry stored under `(tenant, "hours", "a:menu:b")` is retrievable, yet
`invalidate(tenant, "menu")` evicts it, because the in-memory clearing
predicate deletes every tenant key *containing* `":menu:"` and the raw
query string is embedded in the key. -/
theorem clear_cache_category_evicts_hours_entry :
    get_cached_result (set_cached_result cacheInit "t" "a:menu:b" "V" (some "hours"))
        "t" "a:menu:b" (some "hours") = some "V" ∧
    get_cached_result
        (clear_cache (set_cached_result cacheInit "t" "a:menu:b" "V" (some "hours"))
          "t" (some "menu"))
        "t" "a:menu:b" (some "hours") = none := by
  constructor
  · rfl
  · decide

/-- C3, amended as the counterexample forces: after
`invalidate(tenant, "menu")` an entry under `(tenant, "hours", q)` is
still retrievable provided its key does not contain the substring
`":menu:"` (in particular whenever `q` itself does not); and after
`invalidate(tenant, none)` no entry of that tenant is retrievable,
whatever the category. -/
theorem clear_cache_invalidation_scoping :
    (∀ (st : CacheSt) (rid q v : String),
       pyContains (get_cache_key rid q (some "hours")) ":menu:" = false →
       get_cached_result st rid q (some "hours") = some v →
       get_cached_result (clear_cache st rid (some "menu")) rid q (some "hours") = some v) ∧
    (∀ (st : CacheSt) (rid q : String) (cat : Option String),
       get_cached_result (clear_cache st rid none) rid q cat = none) := by
  constructor
  · intro st rid q v hsub hbefore
    have hkey : get_cache_key rid q (some "hours") =
        "cache:" ++ rid ++ ":" ++ "hours" ++ ":" ++ q := rfl
    have hkept : fallbackKeyKept rid (some "menu") (get_cache_key rid q (some "hours")) = true := by
      simp [fallbackKeyKept, hsub]
    obtain ⟨redis, fb, fcp⟩ := st
    cases redis with
    | none =>
      simp only [get_cached_result, clear_cache, clear_fallback_cache] at *
      rw [alGet_filter_keep _ _ _ hkept]
      exact hbefore
    | some r =>
      by_cases hf : r.failing
      · simp only [get_cached_result, clear_cache, clear_fallback_cache, hf, if_true] at *
        rw [alGet_filter_keep _ _ _ hkept]
        exact hbefore
      · have hrkept : redisKeyKept ("cache:" ++ rid ++ ":" ++ "menu" ++ ":")
            (get_cache_key rid q (some "hours")) = true := by
          rw [hkey]
          simp [redisKeyKept, hours_key_not_menu_pre]
        simp only [get_cached_result, clear_cache, hf, if_false, Bool.false_eq_true] at *
        simp only [show ("menu" : String) ≠ "" from by decide, if_false] at *
        rw [alGet_filter_keep _ _ _ hrkept]
        exact hbefore
  · intro st rid q cat
    obtain ⟨cs, hkey⟩ := get_cache_key_shape rid q cat
    have hsw : pyStartswith (get_cache_key rid q cat) ("cache:" ++ rid ++ ":") = true := by
      rw [hkey]; exact cache_key_tenant_pre rid cs q
    have hdrop : fallbackKeyKept rid none (get_cache_key rid q cat) = false := by
      simp [fallbackKeyKept, hsw]
    have hrdrop : redisKeyKept ("cache:" ++ rid ++ ":") (get_cache_key rid q cat) = false := by
      simp [redisKeyKept, hsw]
    obtain ⟨redis, fb, fcp⟩ := st
    cases redis with
    | none =>
      simp only [get_cached_result, clear_cache, clear_fallback_cache]
      rw [alGet_filter_drop _ _ _ hdrop]
    | some r =>
      by_cases hf : r.failing
      · simp only [get_cached_result, clear_cache, clear_fallback_cache, hf, if_true]
        rw [alGet_filter_drop _ _ _ hdrop]
      · simp only [get_cached_result, clear_cache, hf, if_false, Bool.false_eq_true]
        rw [alGet_filter_drop _ _ _ hrdrop]

/-- Closed instance of `clear_cache_invalidation_scoping`: an hours
entry whose query does not mention `:menu:` survives a menu
invalidation, and a tenant-wide invalidation removes a stored entry. -/
theorem clear_cache_invalidation_scoping_witness :
    get_cached_result
        (clear_cache (set_cached_result cacheInit "t" "pizza" "V" (some "hours"))
          "t" (some "menu"))
        "t" "pizza" (some "hours") = some "V" ∧
    get_cached_result
        (clear_cache (set_cached_result cacheInit "t" "pizza" "V" (some "hours")) "t" none)
        "t" "pizza" (some "hours") = none := by
  constructor
  · exact clear_cache_invalidation_scoping.1
      (set_cached_result cacheInit "t" "pizza" "V" (some "hours"))
      "t" "pizza" "V" (by decide) rfl
  · exact clear_cache_invalidation_scoping.2
      (set_cached_result cacheInit "t" "pizza" "V" (some "hours"))
      "t" "pizza" (some "hours")

/-! ## C2 -/

/-- C2: when the vendor record's status (lowercased, `""` when absent)
is not terminal, the fetcher is a total no-op: it returns `none`,
writes nothing to the datastore, and — being a total function — raises
nothing. -/
theorem fetcher_terminal_status_noop (env : FetchEnv) (cache : CacheSt)
    (id k : String) (cd : Payload)
    (h1 : env.apiKey = some k) (h2 : k ≠ "") (h3 : env.getCall = some cd)
    (h4 : strLower (cd.status.getD "") ∉ terminalStatuses) :
    fetch_and_store_call_from_vapi env cache id = (none, none) := by
  simp only [fetch_and_store_call_from_vapi, h1, h3]
  simp [h2, h4]

/-- Closed instance of `fetcher_terminal_status_noop` at status
`"in-progress"`. -/
theorem fetcher_terminal_status_noop_witness :
    fetch_and_store_call_from_vapi fetchEnvNonTerminal cacheInit "c1" = (none, none) :=
  fetcher_terminal_status_noop fetchEnvNonTerminal cacheInit "c1" "key"
    { status := some "in-progress" } rfl (by decide) rfl (by decide)

/-! ## C6 -/

theorem view_of_truthy {o : Option String} (h : oTruthy o = true) : truthyView o = o := by
  simp [truthyView, h]

theorem view_of_falsy {o : Option String} (h : oTruthy o = false) : truthyView o = none := by
  simp [truthyView, h]

theorem oTruthy_some_ne {o : Option String} (h : oTruthy o = true) :
    ∃ p, o = some p ∧ p ≠ "" := by
  cases o with
  | none => simp [oTruthy] at h
  | some p => exact ⟨p, rfl, by simpa [oTruthy] using h⟩

/-- Through the truthiness view, the field fallback of the resolution
block is normalisation of the record's `phoneNumber` field. -/
theorem resolveFieldStep_view (cached : Option String) (pv : Option PV)
    (hc : oTruthy cached = false) :
    truthyView (resolveFieldStep cached pv) =
      truthyView (normalize_phone_number pv) := by
  have hcs : cached = none ∨ cached = some "" := by
    cases cached with
    | none => exact Or.inl rfl
    | some s =>
      refine Or.inr ?_
      have : s = "" := by simpa [oTruthy] using hc
      rw [this]
  have main : ∀ c0 : Option String, (c0 = none ∨ c0 = some "") →
      truthyView (resolveFieldStep c0 pv) = truthyView (normalize_phone_number pv) := by
    rintro c0 (rfl | rfl) <;>
      · cases pv with
        | none => simp [resolveFieldStep, normalize_phone_number, truthyView, oTruthy]
        | some v =>
          cases v with
          | pstr s' =>
            by_cases hs' : s' = "" <;>
              simp [resolveFieldStep, pvTruthy, pvNormalize, normalize_phone_number,
                truthyView, oTruthy, hs']
          | pdictEmpty =>
            simp [resolveFieldStep, pvTruthy, pvNormalize, normalize_phone_number,
              truthyView, oTruthy]
          | pdict n =>
            simp [resolveFieldStep, pvTruthy, pvNormalize, normalize_phone_number,
              truthyView, oTruthy]
          | pother r =>
            simp [resolveFieldStep, pvTruthy, pvNormalize, normalize_phone_number,
              truthyView, oTruthy]
  exact main cached hcs

/-- Through the truthiness view, the secondary-lookup fallback of the
resolution block is the spec's guarded lookup by `phoneNumberId`. -/
theorem resolveLookupStep_view (p2 : Option String) (pid : Option String)
    (lookup : String → Option PNRec) (h2 : oTruthy p2 = false) :
    truthyView (resolveLookupStep p2 pid lookup) =
      truthyView ((truthyView pid).bind (fun i => (lookup i).bind (fun r => r.number))) := by
  have hcs : p2 = none ∨ p2 = some "" := by
    cases p2 with
    | none => exact Or.inl rfl
    | some s =>
      refine Or.inr ?_
      have : s = "" := by simpa [oTruthy] using h2
      rw [this]
  have main : ∀ q : Option String, (q = none ∨ q = some "") →
      truthyView (resolveLookupStep q pid lookup) =
        truthyView ((truthyView pid).bind (fun i => (lookup i).bind (fun r => r.number))) := by
    rintro q (rfl | rfl) <;>
      · cases pid with
        | none => simp [resolveLookupStep, truthyView, oTruthy]
        | some i =>
          by_cases hi : i = ""
          · subst hi
            simp [resolveLookupStep, truthyView, oTruthy]
          · cases hlk : lookup i with
            | none => simp [resolveLookupStep, truthyView, oTruthy, hi, hlk]
            | some r => simp [resolveLookupStep, truthyView, oTruthy, hi, hlk]
  exact main p2 hcs

/-- The code's phone-resolution block, seen through Python truthiness,
is exactly the spec's priority chain. -/
theorem resolve_eq_spec (cached : Option String) (pv : Option PV) (pid : Option String)
    (lookup : String → Option PNRec) :
    truthyView (resolvePhoneBlock cached pv pid lookup) =
      specPhonePriority cached pv pid lookup := by
  unfold resolvePhoneBlock specPhonePriority
  by_cases hc : oTruthy cached = true
  · obtain ⟨s, rfl, hs⟩ := oTruthy_some_ne hc
    simp [resolveFieldStep, resolveLookupStep, truthyView, oTruthy, hs]
  · rw [Bool.not_eq_true] at hc
    rw [view_of_falsy hc]
    by_cases h2 : oTruthy (resolveFieldStep cached pv) = true
    · have hf := view_of_truthy h2
      obtain ⟨p, hp, hpne⟩ := oTruthy_some_ne h2
      have hnorm : truthyView (normalize_phone_number pv) = some p := by
        rw [← resolveFieldStep_view cached pv hc, hf, hp]
      rw [hnorm]
      rw [hp] at h2 ⊢
      simp [resolveLookupStep, h2, truthyView, oTruthy, hpne]
    · rw [Bool.not_eq_true] at h2
      have hnorm : truthyView (normalize_phone_number pv) = none := by
        rw [← resolveFieldStep_view cached pv hc, view_of_falsy h2]
      rw [hnorm]
      exact resolveLookupStep_view _ pid lookup h2

/-- C6: for every terminal call record fetched, the phone number the
fetcher attributes is the spec's fixed priority chain — cached
association, else the record's `phoneNumber` field, else the secondary
lookup via `phoneNumberId` — and when all three sources yield nothing
the fetcher returns `none` and stores no `CallRecord`. -/
theorem fetcher_phone_priority_chain :
    (∀ (cached : Option String) (pv : Option PV) (pid : Option String)
       (lookup : String → Option PNRec),
       truthyView (resolvePhoneBlock cached pv pid lookup) =
         specPhonePriority cached pv pid lookup) ∧
    (∀ (env : FetchEnv) (cache : CacheSt) (id k : String) (cd : Payload),
       env.apiKey = some k → k ≠ "" → env.getCall = some cd →
       specPhonePriority (get_call_phone cache id) cd.phoneNumber cd.phoneNumberId
           env.getPhoneNumber = none →
       fetch_and_store_call_from_vapi env cache id = (none, none)) ∧
    (∀ (env : FetchEnv) (cache : CacheSt) (id k p : String) (cd : Payload) (sc : StoredCall),
       env.apiKey = some k → k ≠ "" → env.getCall = some cd →
       specPhonePriority (get_call_phone cache id) cd.phoneNumber cd.phoneNumberId
           env.getPhoneNumber = some p →
       (fetch_and_store_call_from_vapi env cache id).2 = some sc →
       sc.data.phone_number = some p) := by
  refine ⟨resolve_eq_spec, ?_, ?_⟩
  · intro env cache id k cd h1 h2 h3 hspec
    rw [← resolve_eq_spec] at hspec
    simp only [fetch_and_store_call_from_vapi, h1, h3]
    rw [if_neg h2]
    by_cases hterm : strLower (cd.status.getD "") ∉ terminalStatuses
    · rw [if_pos hterm]
    · rw [if_neg hterm]
      cases hres : resolvePhoneBlock (get_call_phone cache id) cd.phoneNumber
          cd.phoneNumberId env.getPhoneNumber with
      | none => simp [hres]
      | some q =>
        rw [hres] at hspec
        have hq : q = "" := by
          by_contra hne
          simp [truthyView, oTruthy, hne] at hspec
        simp [hres, hq]
  · intro env cache id k p cd sc h1 h2 h3 hspec hstore
    rw [← resolve_eq_spec] at hspec
    simp only [fetch_and_store_call_from_vapi, h1, h3] at hstore
    rw [if_neg h2] at hstore
    by_cases hterm : strLower (cd.status.getD "") ∉ terminalStatuses
    · rw [if_pos hterm] at hstore
      simp at hstore
    · rw [if_neg hterm] at hstore
      cases hres : resolvePhoneBlock (get_call_phone cache id) cd.phoneNumber
          cd.phoneNumberId env.getPhoneNumber with
      | none =>
        rw [hres] at hstore
        simp at hstore
      | some q =>
        rw [hres] at hspec hstore
        by_cases hqe : q = ""
        · rw [hqe] at hspec
          simp [truthyView, oTruthy] at hspec
        · have hqp : q = p := by
            have hv : truthyView (some q) = some q := by simp [truthyView, oTruthy, hqe]
            rw [hv] at hspec
            exact Option.some.inj hspec
          subst hqp
          dsimp only at hstore
          rw [if_neg hqe] at hstore
          have hpn : (parse_vapi_call_data
              { cd with phoneNumber := some (.pstr q) }).phone_number = some q := rfl
          simp only [store_call_record, hpn] at hstore
          rw [if_neg hqe] at hstore
          cases hrid : get_restaurant_id_from_phone env.db q with
          | none =>
            rw [hrid] at hstore
            simp at hstore
          | some rid =>
            rw [hrid] at hstore
            dsimp only at hstore
            by_cases hre : rid = ""
            · rw [if_pos hre] at hstore
              simp at hstore
            · rw [if_neg hre] at hstore
              simp only [Option.some.injEq] at hstore
              rw [← hstore]
              exact hpn

/-- Closed instance of `fetcher_phone_priority_chain`: with an ended
record and no phone source, the fetcher stores nothing and returns
`none`. -/
theorem fetcher_phone_priority_chain_witness :
    fetch_and_store_call_from_vapi fetchEnvEnded cacheInit "c1" = (none, none) :=
  fetcher_phone_priority_chain.2.1 fetchEnvEnded cacheInit "c1" "key"
    { status := some "ended" } rfl (by decide) rfl rfl

/-! ## C5 -/

/-- C5: for the webhook phone `"+1 (930) 888-9330"` and a datastore
mapping stored under `"+19308889330"`, the assistant-request handler
answers with that mapping's restaurant id; and the lookup normalisation
strips exactly spaces, parentheses and hyphens — nothing else — before
the comparison. -/
theorem assistant_request_phone_normalization :
    (∀ (cache : CacheSt) (maps : List (String × String)) (rid : String), rid ≠ "" →
       alGet maps "+19308889330" = some rid →
       handle_assistant_request cache ⟨maps, false⟩
           ⟨some (.pstr "+1 (930) 888-9330"), none⟩ =
         .ok (.jobj [("metadata", .jobj [("restaurant_id", .jstr rid),
               ("phoneNumber", .jstr "+1 (930) 888-9330")])], cache)) ∧
    (∀ p : String, phoneClean p = String.mk (p.data.filter keepChar)) ∧
    (∀ (db : PhoneDB) (p : String), p ≠ "" → db.failing = false →
       get_restaurant_id_from_phone db p = alGet db.mappings (phoneClean p)) := by
  refine ⟨?_, phoneClean_eq_filter, ?_⟩
  · intro cache maps rid hrid hmap
    have hclean : phoneClean "+1 (930) 888-9330" = "+19308889330" := by decide
    have h0 : ("+1 (930) 888-9330" : String) ≠ "" := by decide
    simp [handle_assistant_request, extract_phone_number, pvTruthy, pvNormalize,
      get_restaurant_id_from_phone, h0, hclean, hmap, hrid]
  · intro db p hp hf
    simp [get_restaurant_id_from_phone, hp, hf]

/-- Closed instance of `assistant_request_phone_normalization` with a
one-row mapping table. -/
theorem assistant_request_phone_normalization_witness :
    handle_assistant_request cacheInit ⟨[("+19308889330", "r1")], false⟩
        ⟨some (.pstr "+1 (930) 888-9330"), none⟩ =
      .ok (.jobj [("metadata", .jobj [("restaurant_id", .jstr "r1"),
            ("phoneNumber", .jstr "+1 (930) 888-9330")])], cacheInit) :=
  assistant_request_phone_normalization.1 cacheInit [("+19308889330", "r1")] "r1"
    (by decide) (by decide)

/-! ## C7 -/

theorem parse_started_eq (p : Payload) :
    (parse_vapi_call_data p).started_at = parse_timestamp (pyOrTS p.startedAt p.createdAt) := rfl

theorem parse_ended_eq (p : Payload) :
    (parse_vapi_call_data p).ended_at = parse_timestamp
      (if tsTruthy p.endedAt then p.endedAt
       else if strLower (p.status.getD "") ∈ terminalStatuses then p.updatedAt
       else p.endedAt) := rfl

theorem parse_duration_eq (p : Payload) :
    (parse_vapi_call_data p).duration_seconds =
      if durTruthy p.duration then p.duration
      else match (parse_vapi_call_data p).started_at, (parse_vapi_call_data p).ended_at with
        | some s, some e => some ((e - s : Int) : ℚ)
        | _, _ => p.duration := rfl

theorem parse_messages_eq (p : Payload) :
    (parse_vapi_call_data p).messages = p.messages.filterMap cleanMsg := rfl

theorem parse_cost_eq (p : Payload) :
    (parse_vapi_call_data p).cost =
      match p.cost with
      | none => none
      | some c => pyFloat c := rfl

/-- A falsy timestamp value never parses. -/
theorem parse_timestamp_falsy {o : Option TSVal} (h : tsTruthy o = false) :
    parse_timestamp o = none := by
  cases o with
  | none => rfl
  | some v =>
    cases v with
    | dt t => simp [tsTruthy] at h
    | str s iso =>
      have : s = "" := by simpa [tsTruthy] using h
      simp [parse_timestamp, this]

/-- Every message the filter keeps has a conversational role and
non-empty content. -/
theorem cleanMsg_shape {mv : MsgVal} {o : CleanMsg} (h : cleanMsg mv = some o) :
    o.role ∈ conversationalRoles ∧ o.content ≠ "" := by
  cases mv with
  | nondict => simp [cleanMsg] at h
  | dict role content message =>
    cases role with
    | none => simp [cleanMsg] at h
    | some r =>
      by_cases hr : r ∈ conversationalRoles
      · simp only [cleanMsg, hr, if_true] at h
        cases hc : pyOrS content (some (message.getD "")) with
        | none => rw [hc] at h; simp at h
        | some cs =>
          rw [hc] at h
          by_cases hcs : cs = ""
          · simp [hcs] at h
          · simp only [hcs, if_false] at h
            obtain rfl : (⟨r, cs⟩ : CleanMsg) = o := by simpa using h
            exact ⟨hr, hcs⟩
      · simp [cleanMsg, hr] at h

/-- C7, amended as the counterexample forces: `started_at` is derived
from `startedAt` or (when that is falsy) `createdAt`; `ended_at` from
`endedAt`, or `updatedAt` when `endedAt` is falsy and the status is
terminal, and is `none` when `endedAt` is falsy and the status is not
terminal; `duration_seconds` is the integer timestamp delta exactly when
the supplied `duration` is absent *or falsy* (such as `0`) and both
timestamps parse, and is the supplied value otherwise; the kept messages
are exactly the cleaned conversational-role messages, each reduced to a
non-empty `{role, content}`; and `cost` is coerced through `float(...)`
with unparsable values dropped to `none`. -/
theorem parser_normalization_postconditions :
    (∀ p : Payload, (tsTruthy p.startedAt = true →
        (parse_vapi_call_data p).started_at = parse_timestamp p.startedAt) ∧
      (tsTruthy p.startedAt = false →
        (parse_vapi_call_data p).started_at = parse_timestamp p.createdAt)) ∧
    (∀ p : Payload, (tsTruthy p.endedAt = true →
        (parse_vapi_call_data p).ended_at = parse_timestamp p.endedAt) ∧
      (tsTruthy p.endedAt = false → strLower (p.status.getD "") ∈ terminalStatuses →
        (parse_vapi_call_data p).ended_at = parse_timestamp p.updatedAt) ∧
      (tsTruthy p.endedAt = false → strLower (p.status.getD "") ∉ terminalStatuses →
        (parse_vapi_call_data p).ended_at = none)) ∧
    (∀ p : Payload, (∀ s e : Int, durTruthy p.duration = false →
        (parse_vapi_call_data p).started_at = some s →
        (parse_vapi_call_data p).ended_at = some e →
        (parse_vapi_call_data p).duration_seconds = some ((e - s : Int) : ℚ)) ∧
      (durTruthy p.duration = false →
        ((parse_vapi_call_data p).started_at = none ∨ (parse_vapi_call_data p).ended_at = none) →
        (parse_vapi_call_data p).duration_seconds = p.duration) ∧
      (durTruthy p.duration = true →
        (parse_vapi_call_data p).duration_seconds = p.duration)) ∧
    (∀ p : Payload, (∀ m ∈ (parse_vapi_call_data p).messages,
        m.role ∈ conversationalRoles ∧ m.content ≠ "") ∧
      (∀ mv ∈ p.messages, ∀ o : CleanMsg, cleanMsg mv = some o →
        o ∈ (parse_vapi_call_data p).messages)) ∧
    (∀ p : Payload, (p.cost = none → (parse_vapi_call_data p).cost = none) ∧
      (∀ c : CostVal, p.cost = some c → (parse_vapi_call_data p).cost = pyFloat c)) := by
  refine ⟨?_, ?_, ?_, ?_, ?_⟩
  · intro p
    constructor <;> intro h <;> rw [parse_started_eq] <;> simp [pyOrTS, h]
  · intro p
    refine ⟨?_, ?_, ?_⟩
    · intro h
      rw [parse_ended_eq, h, if_pos rfl]
    · intro h hterm
      rw [parse_ended_eq, h]
      simp [hterm]
    · intro h hterm
      rw [parse_ended_eq, h]
      simp only [if_false, Bool.false_eq_true, hterm]
      exact parse_timestamp_falsy h
  · intro p
    refine ⟨?_, ?_, ?_⟩
    · intro s e hd hs he
      rw [parse_duration_eq, if_neg (by simp [hd]), hs, he]
    · intro hd hne
      rw [parse_duration_eq, if_neg (by simp [hd])]
      rcases hne with hs | he
      · rw [hs]
      · rw [he]
        cases (parse_vapi_call_data p).started_at <;> rfl
    · intro hd
      rw [parse_duration_eq, if_pos hd]
  · intro p
    constructor
    · intro m hm
      rw [parse_messages_eq] at hm
      obtain ⟨mv, _, hmv⟩ := List.mem_filterMap.mp hm
      exact cleanMsg_shape hmv
    · intro mv hmv o ho
      rw [parse_messages_eq]
      exact List.mem_filterMap.mpr ⟨mv, hmv, ho⟩
  · intro p
    constructor
    · intro h
      rw [parse_cost_eq, h]
    · intro c h
      rw [parse_cost_eq, h]

/-- Counterexample to C7 as stated: the parser computes the timestamp
delta although the payload *does* supply a duration — Python `not 0` is
true, so a supplied duration of `0` is overwritten by the delta `5`.
The claimed equivalence (delta computed exactly when no duration is
supplied and both timestamps parse) is false at this payload. -/
theorem parser_duration_zero_cex :
    ¬ (((parse_vapi_call_data payloadDurZero).duration_seconds = some ((5 : Int) : ℚ)) ↔
       (payloadDurZero.duration = none ∧
        (parse_vapi_call_data payloadDurZero).started_at.isSome = true ∧
        (parse_vapi_call_data payloadDurZero).ended_at.isSome = true)) := by
  intro hiff
  have hlhs : (parse_vapi_call_data payloadDurZero).duration_seconds = some ((5 : Int) : ℚ) := by
    rw [parse_duration_eq]
    norm_num [payloadDurZero, durTruthy, parse_started_eq, parse_ended_eq, pyOrTS, tsTruthy,
      parse_timestamp, strLower, terminalStatuses]
  have := (hiff.mp hlhs).1
  simp [payloadDurZero] at this

/-- Closed instance of `parser_normalization_postconditions`: a payload
supplying no duration, with timestamps five seconds apart, a system
message to drop, a user message to keep, and an unparsable cost. -/
theorem parser_normalization_postconditions_witness :
    (parse_vapi_call_data
        { startedAt := some (.dt 100), endedAt := some (.dt 105), status := some "ended",
          messages := [.dict (some "system") (some "sys") none,
                       .dict (some "user") (some "hi") none],
          cost := some (.str "abc" none) }).started_at = some 100 ∧
    (parse_vapi_call_data
        { startedAt := some (.dt 100), endedAt := some (.dt 105), status := some "ended",
          messages := [.dict (some "system") (some "sys") none,
                       .dict (some "user") (some "hi") none],
          cost := some (.str "abc" none) }).duration_seconds = some ((5 : Int) : ℚ) ∧
    (⟨"user", "hi"⟩ : CleanMsg) ∈ (parse_vapi_call_data
        { startedAt := some (.dt 100), endedAt := some (.dt 105), status := some "ended",
          messages := [.dict (some "system") (some "sys") none,
                       .dict (some "user") (some "hi") none],
          cost := some (.str "abc" none) }).messages ∧
    (parse_vapi_call_data
        { startedAt := some (.dt 100), endedAt := some (.dt 105), status := some "ended",
          messages := [.dict (some "system") (some "sys") none,
                       .dict (some "user") (some "hi") none],
          cost := some (.str "abc" none) }).cost = none := by
  refine ⟨?_, ?_, ?_, ?_⟩
  · exact (parser_normalization_postconditions.1 _).1 (by decide)
  · exact (parser_normalization_postconditions.2.2.1 _).1 100 105 (by decide)
      ((parser_normalization_postconditions.1 _).1 (by decide))
      ((parser_normalization_postconditions.2.1 _).1 (by decide))
  · exact (parser_normalization_postconditions.2.2.2.1 _).2
      (.dict (some "user") (some "hi") none) (by decide) ⟨"user", "hi"⟩ (by decide)
  · exact (parser_normalization_postconditions.2.2.2.2 _).2 (.str "abc" none) rfl

/-! ## C4 -/

/-- Every successful result of the dispatch is either the empty
acknowledgement or a handler's own successful result. -/
theorem dispatchInner_ok_shape (hAR hSU hEOC : JVal → Except Unit JVal)
    (parsed : Except Unit JVal) (r : JVal)
    (h : dispatchInner hAR hSU hEOC parsed = .ok r) :
    r = .jobj [] ∨ (∃ m, hAR m = .ok r) ∨ (∃ m, hSU m = .ok r) ∨ (∃ m, hEOC m = .ok r) := by
  cases parsed with
  | error e => simp [dispatchInner] at h
  | ok body =>
    cases body with
    | jobj fs =>
      simp only [dispatchInner] at h
      cases hmsg : (alGet fs "message").getD (.jobj []) with
      | jobj mfs =>
        rw [hmsg] at h
        dsimp only at h
        cases hty : alGet mfs "type" with
        | none =>
          rw [hty] at h
          simp at h
          exact Or.inl h.symm
        | some tv =>
          rw [hty] at h
          cases tv with
          | jstr s =>
            by_cases h1 : s = "assistant-request"
            · subst h1; simp at h; exact Or.inr (Or.inl ⟨_, h⟩)
            · by_cases h2 : s = "status-update"
              · subst h2; simp at h; exact Or.inr (Or.inr (Or.inl ⟨_, h⟩))
              · by_cases h3 : s = "end-of-call-report"
                · subst h3; simp at h; exact Or.inr (Or.inr (Or.inr ⟨_, h⟩))
                · simp [h1, h2, h3] at h; exact Or.inl h.symm
          | null => simp at h; exact Or.inl h.symm
          | jbool b => simp at h; exact Or.inl h.symm
          | jnum q => simp at h; exact Or.inl h.symm
          | jarr xs => simp at h; exact Or.inl h.symm
          | jobj gs => simp at h; exact Or.inl h.symm
      | null => rw [hmsg] at h; simp at h
      | jbool b => rw [hmsg] at h; simp at h
      | jnum q => rw [hmsg] at h; simp at h
      | jstr s => rw [hmsg] at h; simp at h
      | jarr xs => rw [hmsg] at h; simp at h
    | null => simp [dispatchInner] at h
    | jbool b => simp [dispatchInner] at h
    | jnum q => simp [dispatchInner] at h
    | jstr s => simp [dispatchInner] at h
    | jarr xs => simp [dispatchInner] at h

/-- Every successful answer of the assistant-request handler is a JSON
object. -/
theorem handle_assistant_request_isJObj (cache : CacheSt) (db : PhoneDB) (m : ARMsg)
    (r : JVal) (c : CacheSt) (h : handle_assistant_request cache db m = .ok (r, c)) :
    isJObj r = true := by
  obtain ⟨pn, call⟩ := m
  simp only [handle_assistant_request] at h
  cases hext : extract_phone_number ⟨pn, call⟩ with
  | error e => rw [hext] at h; simp at h
  | ok pho =>
    rw [hext] at h
    dsimp only at h
    cases pho with
    | none =>
      simp only [Except.ok.injEq, Prod.mk.injEq] at h
      rw [← h.1]; rfl
    | some p =>
      dsimp only at h
      by_cases hp : p = ""
      · rw [if_pos hp] at h
        simp only [Except.ok.injEq, Prod.mk.injEq] at h
        rw [← h.1]; rfl
      · rw [if_neg hp] at h
        rcases call with _ | cv
        · dsimp only at h
          cases hrid : get_restaurant_id_from_phone db p with
          | none =>
            rw [hrid] at h
            simp only [Except.ok.injEq, Prod.mk.injEq] at h
            rw [← h.1]; rfl
          | some rid =>
            rw [hrid] at h
            dsimp only at h
            split_ifs at h <;>
              · simp only [Except.ok.injEq, Prod.mk.injEq] at h
                rw [← h.1]; rfl
        · cases cv with
          | acnondict => simp at h
          | acdictEmpty =>
            dsimp only at h
            cases hrid : get_restaurant_id_from_phone db p with
            | none =>
              rw [hrid] at h
              simp only [Except.ok.injEq, Prod.mk.injEq] at h
              rw [← h.1]; rfl
            | some rid =>
              rw [hrid] at h
              dsimp only at h
              split_ifs at h <;>
                · simp only [Except.ok.injEq, Prod.mk.injEq] at h
                  rw [← h.1]; rfl
          | acdict i pn2 =>
            dsimp only at h
            cases hrid : get_restaurant_id_from_phone db p with
            | none =>
              rw [hrid] at h
              simp only [Except.ok.injEq, Prod.mk.injEq] at h
              rw [← h.1]; rfl
            | some rid =>
              rw [hrid] at h
              dsimp only at h
              split_ifs at h <;>
                · simp only [Except.ok.injEq, Prod.mk.injEq] at h
                  rw [← h.1]; rfl

/-- Every successful answer of the status-update handler is a JSON
object. -/
theorem handle_status_update_isJObj (sch : SchedState) (m : SUMsg)
    (r : JVal) (s : SchedState) (h : handle_status_update sch m = .ok (r, s)) :
    isJObj r = true := by
  obtain ⟨call⟩ := m
  rcases call with _ | cv
  · simp only [handle_status_update, Except.ok.injEq, Prod.mk.injEq] at h
    rw [← h.1]; rfl
  · cases cv with
    | cdictEmpty =>
      simp only [handle_status_update, Except.ok.injEq, Prod.mk.injEq] at h
      rw [← h.1]; rfl
    | cnondict =>
      simp only [handle_status_update, Except.ok.injEq, Prod.mk.injEq] at h
      rw [← h.1]; rfl
    | cdict st id =>
      simp only [handle_status_update] at h
      rcases st with _ | sv
      · dsimp only [Option.getD] at h
        rcases id with _ | i
        · simp only [Except.ok.injEq, Prod.mk.injEq] at h
          rw [← h.1]; rfl
        · dsimp only at h
          split_ifs at h <;>
            · simp only [Except.ok.injEq, Prod.mk.injEq] at h
              rw [← h.1]; rfl
      · cases sv with
        | statusNonStr => simp at h
        | sstr s' =>
          dsimp only [Option.getD] at h
          rcases id with _ | i
          · simp only [Except.ok.injEq, Prod.mk.injEq] at h
            rw [← h.1]; rfl
          · dsimp only at h
            split_ifs at h <;>
              · simp only [Except.ok.injEq, Prod.mk.injEq] at h
                rw [← h.1]; rfl

/-- Every successful answer of the end-of-call-report handler is a JSON
object. -/
theorem handle_end_of_call_report_isJObj (sch : SchedState) (m : SUMsg)
    (r : JVal) (s : SchedState) (h : handle_end_of_call_report sch m = .ok (r, s)) :
    isJObj r = true := by
  obtain ⟨call⟩ := m
  rcases call with _ | cv
  · simp only [handle_end_of_call_report, Except.ok.injEq, Prod.mk.injEq] at h
    rw [← h.1]; rfl
  · cases cv with
    | cdictEmpty =>
      simp only [handle_end_of_call_report, Except.ok.injEq, Prod.mk.injEq] at h
      rw [← h.1]; rfl
    | cnondict =>
      simp only [handle_end_of_call_report, Except.ok.injEq, Prod.mk.injEq] at h
      rw [← h.1]; rfl
    | cdict st id =>
      simp only [handle_end_of_call_report] at h
      rcases id with _ | i
      · simp only [Except.ok.injEq, Prod.mk.injEq] at h
        rw [← h.1]; rfl
      · dsimp only at h
        split_ifs at h <;>
          · simp only [Except.ok.injEq, Prod.mk.injEq] at h
            rw [← h.1]; rfl

/-- C4: the unified server endpoint is a total function into JSON
values that never propagates an exception: a body-parse failure yields
`{}`, any exception escaping the dispatch or a handler yields `{}`, a
message of unrecognized type is acknowledged with `{}`, and — since
every embedded handler answers with a JSON object whenever it does not
raise — the endpoint's answer is always a JSON object. -/
theorem unified_server_always_acknowledges :
    (∀ (h1 h2 h3 : JVal → Except Unit JVal) (e : Unit),
       vapi_unified_server h1 h2 h3 (.error e) = .jobj []) ∧
    (∀ (h1 h2 h3 : JVal → Except Unit JVal) (p : Except Unit JVal),
       dispatchInner h1 h2 h3 p = .error () →
       vapi_unified_server h1 h2 h3 p = .jobj []) ∧
    (∀ (h1 h2 h3 : JVal → Except Unit JVal) (fs mfs : List (String × JVal)) (s : String),
       (alGet fs "message").getD (.jobj []) = .jobj mfs →
       alGet mfs "type" = some (.jstr s) →
       s ∉ (["assistant-request", "status-update", "end-of-call-report"] : List String) →
       vapi_unified_server h1 h2 h3 (.ok (.jobj fs)) = .jobj []) ∧
    (∀ (h1 h2 h3 : JVal → Except Unit JVal) (p : Except Unit JVal),
       (∀ m r, h1 m = .ok r → isJObj r = true) →
       (∀ m r, h2 m = .ok r → isJObj r = true) →
       (∀ m r, h3 m = .ok r → isJObj r = true) →
       isJObj (vapi_unified_server h1 h2 h3 p) = true) ∧
    (∀ (cache : CacheSt) (db : PhoneDB) (m : ARMsg) (r : JVal) (c : CacheSt),
       handle_assistant_request cache db m = .ok (r, c) → isJObj r = true) ∧
    (∀ (sch : SchedState) (m : SUMsg) (r : JVal) (s : SchedState),
       handle_status_update sch m = .ok (r, s) → isJObj r = true) ∧
    (∀ (sch : SchedState) (m : SUMsg) (r : JVal) (s : SchedState),
       handle_end_of_call_report sch m = .ok (r, s) → isJObj r = true) := by
  refine ⟨?_, ?_, ?_, ?_, handle_assistant_request_isJObj,
    handle_status_update_isJObj, handle_end_of_call_report_isJObj⟩
  · intro h1 h2 h3 e
    rfl
  · intro h1 h2 h3 p h
    simp [vapi_unified_server, h]
  · intro h1 h2 h3 fs mfs s hmsg hty hs
    have e1 : s ≠ "assistant-request" := fun hh => hs (by rw [hh]; decide)
    have e2 : s ≠ "status-update" := fun hh => hs (by rw [hh]; decide)
    have e3 : s ≠ "end-of-call-report" := fun hh => hs (by rw [hh]; decide)
    simp only [vapi_unified_server, dispatchInner, hmsg]
    rw [hty]
    simp [e1, e2, e3]
  · intro h1 h2 h3 p g1 g2 g3
    cases hd : dispatchInner h1 h2 h3 p with
    | error e =>
      simp only [vapi_unified_server, hd]
      rfl
    | ok r =>
      have : vapi_unified_server h1 h2 h3 p = r := by simp [vapi_unified_server, hd]
      rw [this]
      rcases dispatchInner_ok_shape h1 h2 h3 p r hd with hr | ⟨m, hm⟩ | ⟨m, hm⟩ | ⟨m, hm⟩
      · rw [hr]; rfl
      · exact g1 m r hm
      · exact g2 m r hm
      · exact g3 m r hm

/-- Closed instance of `unified_server_always_acknowledges`: a message
of type `"speech-update"` is acknowledged with `{}`. -/
theorem unified_server_always_acknowledges_witness :
    vapi_unified_server (fun _ => .ok (.jobj [])) (fun _ => .ok (.jobj []))
        (fun _ => .ok (.jobj []))
        (.ok (.jobj [("message", .jobj [("type", .jstr "speech-update")])])) = .jobj [] :=
  unified_server_always_acknowledges.2.2.1 (fun _ => .ok (.jobj []))
    (fun _ => .ok (.jobj [])) (fun _ => .ok (.jobj []))
    [("message", .jobj [("type", .jstr "speech-update")])]
    [("type", .jstr "speech-update")] "speech-update" rfl rfl (by decide)

/-! ## C1 -/

/-- A schedule request for an id already in the pending set is a no-op
(the early return under the lock). -/
theorem sched_schedule_mem_noop (s : SchedState) (id : String) (h : id ∈ s.pending) :
    schedStep s (.schedule id) = s := by
  simp [schedStep, h]

theorem schedInv_init : schedInv schedInit := by
  intro id
  refine ⟨by simp [schedInit], by simp [schedInit, liveCount], by simp [schedInit]⟩

/-- Every scheduler event preserves the invariant. -/
theorem schedInv_step (s : SchedState) (e : SchedEvent) (h : schedInv s) :
    schedInv (schedStep s e) := by
  cases e with
  | schedule id =>
    by_cases hm : id ∈ s.pending
    · rw [sched_schedule_mem_noop s id hm]
      exact h
    · intro id'
      obtain ⟨hp, hl, hiff⟩ := h id'
      simp only [schedStep, if_neg hm]
      by_cases hid : id' = id
      · subst hid
        have hw : id' ∉ s.waiting := fun hw => hm (hiff.mpr (Or.inl hw))
        have hf : id' ∉ s.fetching := fun hf => hm (hiff.mpr (Or.inr hf))
        have hpc : s.pending.count id' = 0 := List.count_eq_zero.mpr hm
        have hwc : s.waiting.count id' = 0 := List.count_eq_zero.mpr hw
        have hfc : s.fetching.count id' = 0 := List.count_eq_zero.mpr hf
        refine ⟨?_, ?_, ?_⟩
        · simp [List.count_cons_self, hpc]
        · simp [liveCount, List.count_cons_self, hwc, hfc]
        · simp
      · refine ⟨?_, ?_, ?_⟩
        · rw [List.count_cons_of_ne hid]
          exact hp
        · simp only [liveCount]
          rw [List.count_cons_of_ne hid]
          exact hl
        · simp only [List.mem_cons]
          constructor
          · rintro (hc | hc)
            · exact absurd hc hid
            · rcases hiff.mp hc with hc2 | hc2
              · exact Or.inl (Or.inr hc2)
              · exact Or.inr hc2
          · rintro ((hc | hc) | hc)
            · exact absurd hc hid
            · exact Or.inr (hiff.mpr (Or.inl hc))
            · exact Or.inr (hiff.mpr (Or.inr hc))
  | beginFetch id =>
    by_cases hm : id ∈ s.waiting
    · intro id'
      obtain ⟨hp, hl, hiff⟩ := h id'
      simp only [schedStep, if_pos hm]
      by_cases hid : id' = id
      · subst hid
        have hwpos : 0 < s.waiting.count id' := List.count_pos_iff.mpr hm
        have hfc : s.fetching.count id' = 0 := by
          have := hl
          simp only [liveCount] at this
          omega
        have hwc1 : s.waiting.count id' = 1 := by
          have := hl
          simp only [liveCount] at this
          omega
        refine ⟨hp, ?_, ?_⟩
        · simp only [liveCount, List.count_erase_self, List.count_cons_self, hwc1, hfc]
          omega
        · have hpm : id' ∈ s.pending := hiff.mpr (Or.inl hm)
          simp [hpm]
      · refine ⟨hp, ?_, ?_⟩
        · simp only [liveCount]
          rw [List.count_erase_of_ne hid, List.count_cons_of_ne hid]
          exact hl
        · rw [List.mem_erase_of_ne hid]
          simp only [List.mem_cons]
          constructor
          · intro hc
            rcases hiff.mp hc with hc2 | hc2
            · exact Or.inl hc2
            · exact Or.inr (Or.inr hc2)
          · rintro (hc | (hc | hc))
            · exact hiff.mpr (Or.inl hc)
            · exact absurd hc hid
            · exact hiff.mpr (Or.inr hc)
    · simp only [schedStep, if_neg hm]
      exact h
  | endFetch id =>
    by_cases hm : id ∈ s.fetching
    · intro id'
      obtain ⟨hp, hl, hiff⟩ := h id'
      simp only [schedStep, if_pos hm]
      by_cases hid : id' = id
      · subst hid
        have hfpos : 0 < s.fetching.count id' := List.count_pos_iff.mpr hm
        have hwc : s.waiting.count id' = 0 := by
          have := hl
          simp only [liveCount] at this
          omega
        have hfc1 : s.fetching.count id' = 1 := by
          have := hl
          simp only [liveCount] at this
          omega
        have hpm : id' ∈ s.pending := hiff.mpr (Or.inr hm)
        have hpc1 : s.pending.count id' = 1 := by
          have hppos : 0 < s.pending.count id' := List.count_pos_iff.mpr hpm
          omega
        have hpe : id' ∉ s.pending.erase id' := by
          intro hc
          have := List.count_pos_iff.mpr hc
          rw [List.count_erase_self, hpc1] at this
          omega
        have hfe : id' ∉ s.fetching.erase id' := by
          intro hc
          have := List.count_pos_iff.mpr hc
          rw [List.count_erase_self, hfc1] at this
          omega
        have hwm : id' ∉ s.waiting := by
          intro hc
          have := List.count_pos_iff.mpr hc
          omega
        refine ⟨?_, ?_, ?_⟩
        · rw [List.count_erase_self, hpc1]
          omega
        · simp only [liveCount, List.count_erase_self, hwc, hfc1]
          omega
        · simp [hpe, hfe, hwm]
      · refine ⟨?_, ?_, ?_⟩
        · rw [List.count_erase_of_ne hid]
          exact hp
        · simp only [liveCount]
          rw [List.count_erase_of_ne hid]
          exact hl
        · rw [List.mem_erase_of_ne hid, List.mem_erase_of_ne hid]
          exact hiff
    · simp only [schedStep, if_neg hm]
      exact h

/-- The invariant holds in every reachable scheduler state. -/
theorem schedInv_run (t : List SchedEvent) : schedInv (schedRun schedInit t) := by
  suffices hgen : ∀ s, schedInv s → schedInv (schedRun s t) from hgen schedInit schedInv_init
  induction t with
  | nil => intro s hs; exact hs
  | cons e t ih =>
    intro s hs
    exact ih _ (schedInv_step s e hs)

/-- The only event that removes an id from the pending set is the
completion of that id's fetch. -/
theorem sched_remove_only_endFetch (s : SchedState) (e : SchedEvent) (id : String)
    (hin : id ∈ s.pending) (hout : id ∉ (schedStep s e).pending) :
    e = .endFetch id ∧ id ∈ s.fetching := by
  cases e with
  | schedule i =>
    exfalso
    apply hout
    by_cases hm : i ∈ s.pending
    · rw [sched_schedule_mem_noop s i hm]
      exact hin
    · simp only [schedStep, if_neg hm, List.mem_cons]
      exact Or.inr hin
  | beginFetch i =>
    exfalso
    apply hout
    by_cases hm : i ∈ s.waiting <;> simp only [schedStep, if_pos, if_neg, hm] <;> exact hin
  | endFetch i =>
    by_cases hm : i ∈ s.fetching
    · by_cases hid : id = i
      · subst hid
        exact ⟨rfl, hm⟩
      · exfalso
        apply hout
        simp only [schedStep, if_pos hm]
        exact (List.mem_erase_of_ne hid).mpr hin
    · exfalso
      apply hout
      simp only [schedStep, if_neg hm]
      exact hin

/-- A run of further schedule requests for an already-pending id leaves
the scheduler state unchanged. -/
theorem schedRun_schedules_fixed (t : List SchedEvent) (id : String)
    (h : ∀ e ∈ t, e = .schedule id) :
    schedRun ⟨[id], [id], [], []⟩ t = ⟨[id], [id], [], []⟩ := by
  induction t with
  | nil => rfl
  | cons e t ih =>
    have he := h e (List.mem_cons_self e t)
    subst he
    simp only [schedRun, List.foldl_cons]
    rw [sched_schedule_mem_noop _ _ (by simp)]
    exact ih (fun e' he' => h e' (List.mem_cons_of_mem _ he'))

/-- A non-empty burst of schedule requests for one id followed by the
single task's fetch leaves exactly one completed fetch and an empty
pending set. -/
theorem sched_trace (t : List SchedEvent) (id : String) (hne : t ≠ [])
    (h : ∀ e ∈ t, e = .schedule id) :
    schedRun schedInit (t ++ [.beginFetch id, .endFetch id]) =
      { pending := [], waiting := [], fetching := [], fetched := [id] } := by
  obtain ⟨e, t', rfl⟩ : ∃ e t', t = e :: t' := by
    cases t with
    | nil => exact absurd rfl hne
    | cons e t' => exact ⟨e, t', rfl⟩
  have he := h e (List.mem_cons_self e t')
  subst he
  have h1 : schedStep schedInit (.schedule id) = ⟨[id], [id], [], []⟩ := by
    simp [schedStep, schedInit]
  have hmid : schedRun schedInit (SchedEvent.schedule id :: t') = ⟨[id], [id], [], []⟩ := by
    simp only [schedRun, List.foldl_cons, h1]
    exact schedRun_schedules_fixed t' id (fun e' he' => h e' (List.mem_cons_of_mem _ he'))
  show List.foldl schedStep schedInit ((SchedEvent.schedule id :: t') ++
    [SchedEvent.beginFetch id, SchedEvent.endFetch id]) = _
  rw [List.foldl_append]
  have hmid' : List.foldl schedStep schedInit (SchedEvent.schedule id :: t') =
      ⟨[id], [id], [], []⟩ := hmid
  rw [hmid']
  have hb : schedStep ⟨[id], [id], [], []⟩ (.beginFetch id) = ⟨[id], [], [id], []⟩ := by
    simp [schedStep, List.erase_cons_head]
  have he2 : schedStep ⟨[id], [], [id], []⟩ (.endFetch id) = ⟨[], [], [], [id]⟩ := by
    simp [schedStep, List.erase_cons_head]
  simp only [List.foldl_cons, List.foldl_nil, hb, he2]

/-- C1: the scheduler's dedup invariant.  A schedule request for an id
already in the pending set is a no-op; in every state reachable from the
empty scheduler at most one live (spawned, uncompleted) task exists per
id; an id leaves the pending set only through the completion — return or
raise — of that id's fetch; and any non-empty interleaving of schedule
requests for one id followed by the single spawned task's run produces
exactly one fetch invocation and returns the pending set to empty. -/
theorem scheduler_dedup_single_flight :
    (∀ (s : SchedState) (id : String), id ∈ s.pending →
       schedStep s (.schedule id) = s) ∧
    (∀ (t : List SchedEvent) (id : String), liveCount (schedRun schedInit t) id ≤ 1) ∧
    (∀ (s : SchedState) (e : SchedEvent) (id : String), id ∈ s.pending →
       id ∉ (schedStep s e).pending → e = .endFetch id ∧ id ∈ s.fetching) ∧
    (∀ (t : List SchedEvent) (id : String), t ≠ [] → (∀ e ∈ t, e = .schedule id) →
       schedRun schedInit (t ++ [.beginFetch id, .endFetch id]) =
         { pending := [], waiting := [], fetching := [], fetched := [id] }) :=
  ⟨sched_schedule_mem_noop, fun t id => ((schedInv_run t) id).2.1,
   sched_remove_only_endFetch, sched_trace⟩

/-- Closed instance of `scheduler_dedup_single_flight`: two schedule
requests for `"c1"` and the task's run give exactly one fetch. -/
theorem scheduler_dedup_single_flight_witness :
    schedStep ⟨["c1"], ["c1"], [], []⟩ (.schedule "c1") = ⟨["c1"], ["c1"], [], []⟩ ∧
    schedRun schedInit [.schedule "c1", .schedule "c1", .beginFetch "c1", .endFetch "c1"] =
      { pending := [], waiting := [], fetching := [], fetched := ["c1"] } := by
  constructor
  · exact scheduler_dedup_single_flight.1 ⟨["c1"], ["c1"], [], []⟩ "c1" (by decide)
  · exact scheduler_dedup_single_flight.2.2.2 [.schedule "c1", .schedule "c1"] "c1"
      (by decide) (by decide)
